import Mathlib

/-!
Shallow embedding of the core of a ray tracer (spheres, hittable lists,
materials, color output, camera integrator) and proofs of specification
claims about it.

Modelling conventions:
* C++ `double` values are modelled as exact rationals (`ℚ`).
* `std::sqrt` is not rational-valued, so every function that calls it takes
  the square-root operation as an explicit parameter `sq : ℚ → ℚ`; theorems
  that depend on the numerical value of a square root carry the hypothesis
  that `sq` returns the exact nonnegative square root at the point where the
  code calls it.
* Interval bounds may be the floating-point infinities, so they live in a
  three-case extension `XQ` of `ℚ` with `-∞` and `+∞`.
* Fallible intersection routines take the caller's `hit_record` and return a
  `Bool × hit_record` pair, mirroring the C++ out-parameter convention.
* Randomness (`random_unit_vector`, `random_double`) is modelled by passing
  the sampled value as an explicit argument.
-/

/-- Extended rationals: the values an interval bound can take, namely an
exact finite value or one of the two floating-point infinities. -/
inductive XQ where
  | ninf : XQ
  | fin : ℚ → XQ
  | inf : XQ
deriving DecidableEq

/-- Comparison `a <= b` on extended rationals, as in IEEE double comparison
restricted to non-NaN values. -/
def XQ.leb : XQ → XQ → Bool
  | .ninf, _ => true
  | .fin _, .ninf => false
  | .fin a, .fin b => a ≤ b
  | .fin _, .inf => true
  | .inf, .inf => true
  | .inf, _ => false

/-- Comparison `a < b` on extended rationals. -/
def XQ.ltb : XQ → XQ → Bool
  | .ninf, .ninf => false
  | .ninf, _ => true
  | .fin _, .ninf => false
  | .fin a, .fin b => a < b
  | .fin _, .inf => true
  | .inf, _ => false

/-- Embeds `class interval` from interval.h: a range [min, max] in one
dimension, whose bounds may be infinite. -/
structure interval where
  min : XQ
  max : XQ
deriving DecidableEq

/-- Embeds `interval::contains`: `min <= x && x <= max` (closed bounds). -/
def interval.contains (i : interval) (x : ℚ) : Bool :=
  i.min.leb (.fin x) && (XQ.fin x).leb i.max

/-- Embeds `interval::surrounds`: `min < x && x < max` (strict bounds). -/
def interval.surrounds (i : interval) (x : ℚ) : Bool :=
  i.min.ltb (.fin x) && (XQ.fin x).ltb i.max

/-- Embeds `interval::clamp`: if x < min return min; if x > max return max;
otherwise x. The result is an interval bound value, hence lives in `XQ`. -/
def interval.clamp (i : interval) (x : ℚ) : XQ :=
  if (XQ.fin x).ltb i.min then i.min
  else if i.max.ltb (.fin x) then i.max
  else .fin x

/-- Embeds `interval::empty`: min = +∞, max = -∞. -/
def interval.empty : interval := ⟨.inf, .ninf⟩

/-- Embeds `interval::universe`: the entire real range. -/
def interval.universe : interval := ⟨.ninf, .inf⟩

/-- Modelled from the spec: vec3.h is not in the sources; the spec describes a
3-component real vector used interchangeably as point, direction or color. -/
structure vec3 where
  x : ℚ
  y : ℚ
  z : ℚ
deriving DecidableEq

/-- Modelled from the spec: componentwise vector addition. -/
instance : Add vec3 := ⟨fun a b => ⟨a.x + b.x, a.y + b.y, a.z + b.z⟩⟩

/-- Modelled from the spec: componentwise vector negation. -/
instance : Neg vec3 := ⟨fun a => ⟨-a.x, -a.y, -a.z⟩⟩

/-- Modelled from the spec: componentwise vector subtraction. -/
instance : Sub vec3 := ⟨fun a b => ⟨a.x - b.x, a.y - b.y, a.z - b.z⟩⟩

/-- Modelled from the spec: scalar multiplication `t * v`. -/
instance : SMul ℚ vec3 := ⟨fun t a => ⟨t * a.x, t * a.y, t * a.z⟩⟩

/-- Modelled from the spec: componentwise (Hadamard) product, used for color
attenuation. -/
instance : Mul vec3 := ⟨fun a b => ⟨a.x * b.x, a.y * b.y, a.z * b.z⟩⟩

/-- Modelled from the spec: division of a vector by a scalar. -/
def vec3.sdiv (a : vec3) (t : ℚ) : vec3 := ⟨a.x / t, a.y / t, a.z / t⟩

/-- Modelled from the spec: dot product of two vectors. -/
def vec3.dot (a b : vec3) : ℚ := a.x * b.x + a.y * b.y + a.z * b.z

/-- Modelled from the spec: squared Euclidean length. -/
def vec3.length_squared (a : vec3) : ℚ := a.x * a.x + a.y * a.y + a.z * a.z

/-- Modelled from the spec: `near_zero` returns true when every component is
smaller than 1e-8 in absolute value. -/
def vec3.near_zero (a : vec3) : Bool :=
  |a.x| < 1/100000000 && |a.y| < 1/100000000 && |a.z| < 1/100000000

/-- Modelled from the spec: `unit_vector(v) = v / v.length()` where the length
is the square root of the squared length, supplied through `sq`. -/
def unit_vector (sq : ℚ → ℚ) (v : vec3) : vec3 := v.sdiv (sq v.length_squared)

/-- Modelled from the spec: mirror reflection `d - 2·dot(d,n)·n`. -/
def reflect (v n : vec3) : vec3 := v - (2 * vec3.dot v n) • n

/-- Modelled from the spec: refraction by Snell's law; `uv` is the unit
incoming direction, `n` the unit normal, `eta` the index ratio. The square
root of the parallel-component magnitude is supplied through `sq`. -/
def refract (sq : ℚ → ℚ) (uv n : vec3) (eta : ℚ) : vec3 :=
  let cos_theta := min (vec3.dot (-uv) n) 1
  let r_out_perp := eta • (uv + cos_theta • n)
  let r_out_parallel := (-(sq |1 - r_out_perp.length_squared|)) • n
  r_out_perp + r_out_parallel

/-- Modelled from the spec: color is a synonym of vec3. -/
abbrev color := vec3

/-- Modelled from the spec: ray.h is not in the sources; a ray is an origin
with a direction. -/
structure ray where
  orig : vec3
  dir : vec3
deriving DecidableEq

/-- Modelled from the spec: `ray::at(t) = origin + t·direction`. -/
def ray.at (r : ray) (t : ℚ) : vec3 := r.orig + t • r.dir

/-- Embeds the three material variants of material.h as a closed sum type;
the C++ virtual dispatch becomes a pattern match (`material.scatter`). -/
inductive material where
  | lambertian (albedo : color)
  | metal (albedo : color) (fuzz : ℚ)
  | dielectric (refraction_index : ℚ)
deriving DecidableEq

/-- Embeds `class hit_record` from hittable.h. -/
structure hit_record where
  p : vec3
  normal : vec3
  mat : material
  t : ℚ
  front_face : Bool
deriving DecidableEq

/-- Model of the default-constructed `hit_record` (zero vectors, a black
diffuse material standing in for the null material pointer). -/
instance : Inhabited hit_record :=
  ⟨⟨⟨0, 0, 0⟩, ⟨0, 0, 0⟩, .lambertian ⟨0, 0, 0⟩, 0, false⟩⟩

/-- Embeds `hit_record::set_face_normal`: the front-face flag records whether
the ray comes from outside, and the stored normal always opposes the ray. -/
def hit_record.set_face_normal (rec : hit_record) (r : ray) (outward_normal : vec3) :
    hit_record :=
  let ff : Bool := vec3.dot r.dir outward_normal < 0
  { rec with
    front_face := ff
    normal := if ff then outward_normal else -outward_normal }

/-- Embeds `lambertian::scatter`; the sampled `random_unit_vector()` is the
argument `random_unit`. Returns (scattered?, attenuation, scattered ray). -/
def lambertian.scatter (random_unit : vec3) (albedo : color) (r_in : ray)
    (rec : hit_record) : Bool × color × ray :=
  let scatter_direction := rec.normal + random_unit
  let scatter_direction :=
    if scatter_direction.near_zero then rec.normal else scatter_direction
  (true, albedo, ⟨rec.p, scatter_direction⟩)

/-- Embeds the `metal` constructor: `fuzz(fuzz < 1 ? fuzz : 1)`. -/
def metal.mk' (albedo : color) (fuzz : ℚ) : material :=
  .metal albedo (if fuzz < 1 then fuzz else 1)

/-- Embeds `metal::scatter`; `sq` supplies the square root inside
`unit_vector` and `random_unit` the sampled `random_unit_vector()`. -/
def metal.scatter (sq : ℚ → ℚ) (random_unit : vec3) (albedo : color) (fuzz : ℚ)
    (r_in : ray) (rec : hit_record) : Bool × color × ray :=
  let reflected := reflect r_in.dir rec.normal
  let reflected := unit_vector sq reflected + fuzz • random_unit
  let scattered : ray := ⟨rec.p, reflected⟩
  (vec3.dot scattered.dir rec.normal > 0, albedo, scattered)

/-- Embeds `dielectric::reflectance` (Schlick's approximation). -/
def dielectric.reflectance (cosine refraction_index : ℚ) : ℚ :=
  let r0 := (1 - refraction_index) / (1 + refraction_index)
  let r0 := r0 * r0
  r0 + (1 - r0) * (1 - cosine) ^ 5

/-- Embeds `dielectric::scatter`; `random_dbl` is the sampled
`random_double()` draw and `sq` supplies every square root. -/
def dielectric.scatter (sq : ℚ → ℚ) (random_dbl : ℚ) (refraction_index : ℚ)
    (r_in : ray) (rec : hit_record) : Bool × color × ray :=
  let attenuation : color := ⟨1, 1, 1⟩
  let ri := if rec.front_face then 1 / refraction_index else refraction_index
  let unit_direction := unit_vector sq r_in.dir
  let cos_theta := min (vec3.dot (-unit_direction) rec.normal) 1
  let sin_theta := sq (1 - cos_theta * cos_theta)
  let cannot_refract : Prop := ri * sin_theta > 1
  let direction :=
    if cannot_refract ∨ dielectric.reflectance cos_theta ri > random_dbl then
      reflect unit_direction rec.normal
    else
      refract sq unit_direction rec.normal ri
  (true, attenuation, ⟨rec.p, direction⟩)

/-- Embeds the virtual dispatch of `material::scatter` over the variants. -/
def material.scatter (sq : ℚ → ℚ) (random_unit : vec3) (random_dbl : ℚ) :
    material → ray → hit_record → Bool × color × ray
  | .lambertian albedo => lambertian.scatter random_unit albedo
  | .metal albedo fuzz => metal.scatter sq random_unit albedo fuzz
  | .dielectric ri => dielectric.scatter sq random_dbl ri

/-- Embeds `class sphere` (center, radius, material). -/
structure sphere where
  center : vec3
  radius : ℚ
  mat : material
deriving DecidableEq

/-- Embeds the `sphere` constructor: `radius(std::fmax(0, radius))`. -/
def sphere.mk' (center : vec3) (radius : ℚ) (mat : material) : sphere :=
  ⟨center, max 0 radius, mat⟩

/-- Embeds the record-filling tail of `sphere::hit` once a valid root is
found: set t, the hit point, the face-oriented normal and the material. -/
def sphere.fillRecord (s : sphere) (r : ray) (rec : hit_record) (root : ℚ) :
    hit_record :=
  let t := root
  let p := r.at t
  let outward_normal := (p - s.center).sdiv s.radius
  ({ rec with t := t, p := p, mat := s.mat } : hit_record).set_face_normal r
    outward_normal

/-- Embeds `sphere::hit`: half-coefficient quadratic, negative discriminant
means no hit, otherwise the smaller root is tried first and the larger one is
the fallback; `sq` supplies `std::sqrt(discriminant)`. -/
def sphere.hit (sq : ℚ → ℚ) (s : sphere) (r : ray) (ray_t : interval)
    (rec : hit_record) : Bool × hit_record :=
  let oc := s.center - r.orig
  let a := r.dir.length_squared
  let h := vec3.dot r.dir oc
  let c := oc.length_squared - s.radius * s.radius
  let discriminant := h * h - a * c
  if discriminant < 0 then (false, rec)
  else
    let sqrtd := sq discriminant
    let root := (h - sqrtd) / a
    if ray_t.contains root then (true, sphere.fillRecord s r rec root)
    else
      let root := (h + sqrtd) / a
      if ray_t.contains root then (true, sphere.fillRecord s r rec root)
      else (false, rec)

/-- Embeds the loop body of `hittable_list::hit`: each member is queried on
the interval narrowed to the closest hit so far; on a reported hit the bound
narrows to the reported t and the caller's record is overwritten. Members are
modelled as intersection functions in the style of `sphere.hit`. -/
def hittable_list.hitLoop (r : ray) (tmin : XQ) :
    List (ray → interval → hit_record → Bool × hit_record) →
    XQ → Bool → hit_record → hit_record → Bool × hit_record
  | [], _, hit_anything, _, rec => (hit_anything, rec)
  | object :: rest, closest_so_far, hit_anything, temp_rec, rec =>
    let res := object r ⟨tmin, closest_so_far⟩ temp_rec
    if res.1 then
      hittable_list.hitLoop r tmin rest (.fin res.2.t) true res.2 res.2
    else
      hittable_list.hitLoop r tmin rest closest_so_far hit_anything res.2 rec

/-- Embeds `hittable_list::hit`: fold over the members starting from the
query interval's upper bound, with a default-constructed temporary record. -/
def hittable_list.hit (objects : List (ray → interval → hit_record → Bool × hit_record))
    (r : ray) (ray_t : interval) (rec : hit_record) : Bool × hit_record :=
  hittable_list.hitLoop r ray_t.min objects ray_t.max false default rec

/-- Embeds `linear_to_gamma` from color.h: square root for positive input,
otherwise 0; `sq` supplies `std::sqrt`. -/
def linear_to_gamma (sq : ℚ → ℚ) (linear_component : ℚ) : ℚ :=
  if linear_component > 0 then sq linear_component else 0

/-- Embeds the static `intensity` interval (0.000, 0.999) of `write_color`. -/
def intensity : interval := ⟨.fin 0, .fin (999 / 1000)⟩

/-- Model of the C++ `int(...)` cast on a double: truncation toward zero. -/
def truncQ (q : ℚ) : ℤ := if q < 0 then -⌊-q⌋ else ⌊q⌋

/-- Embeds one channel of `write_color`: gamma-correct, clamp to `intensity`,
scale by 256 and truncate. Since `intensity` has finite bounds the clamp is
always finite; the infinite branches are unreachable and return 0. -/
def byteOf (sq : ℚ → ℚ) (x : ℚ) : ℤ :=
  match intensity.clamp (linear_to_gamma sq x) with
  | .fin q => truncQ (256 * q)
  | _ => 0

/-- Embeds `write_color`: the three channel bytes emitted for a pixel. -/
def write_color (sq : ℚ → ℚ) (pixel_color : color) : ℤ × ℤ × ℤ :=
  (byteOf sq pixel_color.x, byteOf sq pixel_color.y, byteOf sq pixel_color.z)

/-- Embeds the image-height computation of `camera::initialize`:
`image_height = int(image_width / aspect_ratio)` clamped to at least 1. -/
def camera.image_height (image_width : ℤ) (aspect_ratio : ℚ) : ℤ :=
  let ih := truncQ ((image_width : ℚ) / aspect_ratio)
  if ih < 1 then 1 else ih

/-- Embeds `pixel_samples_scale = 1.0 / samples_per_pixel` from
`camera::initialize` (no guard against a zero sample count). -/
def camera.pixel_samples_scale (samples_per_pixel : ℤ) : ℚ :=
  1 / (samples_per_pixel : ℚ)

/-- Embeds `camera::ray_color` with the remaining depth as fuel: depth 0
returns black; otherwise query the world on (0.0001, +∞), scatter on a hit
(black if absorbed), and return the sky gradient on a miss. The world and the
material dispatch are the function parameters `worldHit` and `scatterFn`. -/
def camera.ray_colorAux (sq : ℚ → ℚ)
    (scatterFn : material → ray → hit_record → Bool × color × ray)
    (worldHit : ray → interval → hit_record → Bool × hit_record) :
    ℕ → ray → color
  | 0, _ => ⟨0, 0, 0⟩
  | depth + 1, r =>
    let res := worldHit r ⟨.fin (1 / 10000), .inf⟩ default
    if res.1 then
      let s := scatterFn res.2.mat r res.2
      if s.1 then s.2.1 * camera.ray_colorAux sq scatterFn worldHit depth s.2.2
      else ⟨0, 0, 0⟩
    else
      let unit_direction := unit_vector sq r.dir
      let a := 1 / 2 * (unit_direction.y + 1)
      (1 - a) • (⟨1, 1, 1⟩ : color) + a • (⟨1 / 2, 7 / 10, 1⟩ : color)

/-- Embeds `camera::ray_color` with its C++ `int depth` argument: a
non-positive depth takes the immediate-return branch (black). -/
def camera.ray_color (sq : ℚ → ℚ)
    (scatterFn : material → ray → hit_record → Bool × color × ray)
    (worldHit : ray → interval → hit_record → Bool × hit_record)
    (r : ray) (depth : ℤ) : color :=
  camera.ray_colorAux sq scatterFn worldHit depth.toNat r

/-- Unfolding lemma: componentwise vector addition. -/
@[simp] theorem vec3.add_def (a b : vec3) :
    a + b = ⟨a.x + b.x, a.y + b.y, a.z + b.z⟩ := rfl

/-- Unfolding lemma: componentwise vector negation. -/
@[simp] theorem vec3.neg_def (a : vec3) : -a = ⟨-a.x, -a.y, -a.z⟩ := rfl

/-- Unfolding lemma: componentwise vector subtraction. -/
@[simp] theorem vec3.sub_def (a b : vec3) :
    a - b = ⟨a.x - b.x, a.y - b.y, a.z - b.z⟩ := rfl

/-- Unfolding lemma: scalar multiplication of a vector. -/
@[simp] theorem vec3.smul_def (t : ℚ) (a : vec3) :
    t • a = ⟨t * a.x, t * a.y, t * a.z⟩ := rfl

/-- Unfolding lemma: componentwise vector product. -/
@[simp] theorem vec3.mul_def (a b : vec3) :
    a * b = ⟨a.x * b.x, a.y * b.y, a.z * b.z⟩ := rfl

/-- C10: the metal constructor clamps the fuzz parameter only from above:
the stored value is the argument when it is < 1 and 1 otherwise, hence is
always at most 1, and a negative argument is stored unchanged. -/
theorem metal_fuzz_clamp (albedo : color) (f : ℚ) :
    metal.mk' albedo f = material.metal albedo (if f < 1 then f else 1) ∧
    (if f < 1 then f else 1) ≤ 1 ∧
    (f < 0 → metal.mk' albedo f = material.metal albedo f) := by
  refine ⟨rfl, ?_, ?_⟩
  · split <;> linarith
  · intro hf
    rw [metal.mk', if_pos (by linarith : f < 1)]

/-- Witness for C10 at the concrete fuzz argument -2: the negative value is
stored unchanged. -/
theorem metal_fuzz_clamp_witness :
    metal.mk' ⟨1, 1, 1⟩ (-2) = material.metal ⟨1, 1, 1⟩ (-2) :=
  (metal_fuzz_clamp ⟨1, 1, 1⟩ (-2)).2.2 (by norm_num)

/-- C8: under the precondition `samples_per_pixel ≥ 1` the sample scale is a
genuine reciprocal, and the derived image height is at least 1 for every
configuration. -/
theorem camera_initialize_guards :
    (∀ spp : ℤ, 1 ≤ spp →
      camera.pixel_samples_scale spp * (spp : ℚ) = 1) ∧
    (∀ (w : ℤ) (ar : ℚ), 1 ≤ camera.image_height w ar) := by
  constructor
  · intro spp h
    have hne : (spp : ℚ) ≠ 0 := Int.cast_ne_zero.mpr (by omega)
    rw [camera.pixel_samples_scale, one_div, inv_mul_cancel₀ hne]
  · intro w ar
    rw [camera.image_height]
    split <;> omega

/-- Witness for C8 at samples_per_pixel = 10 and a 400-wide 16:9 image. -/
theorem camera_initialize_guards_witness :
    camera.pixel_samples_scale 10 * ((10 : ℤ) : ℚ) = 1 ∧
    1 ≤ camera.image_height 400 (16 / 9) :=
  ⟨camera_initialize_guards.1 10 (by norm_num),
   camera_initialize_guards.2 400 (16 / 9)⟩

/-- C5: dielectric scattering always reports a scattered ray and neutral
attenuation (1,1,1), whichever of the reflect/refract branches is taken. -/
theorem dielectric_scatter_always (sq : ℚ → ℚ) (random_dbl ri : ℚ) (r_in : ray)
    (rec : hit_record) :
    (dielectric.scatter sq random_dbl ri r_in rec).1 = true ∧
    (dielectric.scatter sq random_dbl ri r_in rec).2.1 = ⟨1, 1, 1⟩ :=
  ⟨rfl, rfl⟩

/-- C6: with fuzz = 0 the metal scatter direction is exactly the normalized
mirror reflection of the incoming direction, and scattering succeeds exactly
when that direction points away from the surface. -/
theorem metal_scatter_fuzz_zero (sq : ℚ → ℚ) (random_unit : vec3)
    (albedo : color) (r_in : ray) (rec : hit_record) :
    (metal.scatter sq random_unit albedo 0 r_in rec).2.2.dir =
      unit_vector sq (reflect r_in.dir rec.normal) ∧
    ((metal.scatter sq random_unit albedo 0 r_in rec).1 = true ↔
      0 < vec3.dot (metal.scatter sq random_unit albedo 0 r_in rec).2.2.dir
        rec.normal) := by
  have hdir : (metal.scatter sq random_unit albedo 0 r_in rec).2.2.dir =
      unit_vector sq (reflect r_in.dir rec.normal) := by
    show unit_vector sq (reflect r_in.dir rec.normal) + (0 : ℚ) • random_unit = _
    simp
  refine ⟨hdir, ?_⟩
  rw [hdir]
  show decide _ = true ↔ _
  rw [decide_eq_true_iff]
  constructor
  · intro h
    calc (0 : ℚ) <
        vec3.dot (unit_vector sq (reflect r_in.dir rec.normal) + (0:ℚ) • random_unit)
          rec.normal := h
      _ = _ := by simp
  · intro h
    calc (0 : ℚ) < vec3.dot (unit_vector sq (reflect r_in.dir rec.normal)) rec.normal := h
      _ = _ := by simp

/-- C7: lambertian scattering always succeeds with attenuation equal to the
albedo; the direction is the normal plus the sampled unit vector, except that
a near-zero sum falls back to the normal itself, so whenever the normal is
not itself near zero the scattered direction is never near zero. -/
theorem lambertian_scatter_spec (random_unit : vec3) (albedo : color)
    (r_in : ray) (rec : hit_record) (hn : rec.normal.near_zero = false) :
    (lambertian.scatter random_unit albedo r_in rec).1 = true ∧
    (lambertian.scatter random_unit albedo r_in rec).2.1 = albedo ∧
    (lambertian.scatter random_unit albedo r_in rec).2.2.dir =
      (if (rec.normal + random_unit).near_zero then rec.normal
        else rec.normal + random_unit) ∧
    (lambertian.scatter random_unit albedo r_in rec).2.2.dir.near_zero = false := by
  refine ⟨rfl, rfl, rfl, ?_⟩
  show (if (rec.normal + random_unit).near_zero then rec.normal
    else rec.normal + random_unit).near_zero = false
  by_cases h : (rec.normal + random_unit).near_zero
  · rw [if_pos h, hn]
  · rw [if_neg h]
    exact Bool.eq_false_iff.mpr h

/-- Witness for C7: a unit normal (0,0,1) and the sampled unit vector
(0,0,-1) cancel, so the fallback direction is the normal and is not
near zero. -/
theorem lambertian_scatter_spec_witness :
    (lambertian.scatter ⟨0, 0, -1⟩ ⟨1, 0, 0⟩ ⟨⟨0, 0, 0⟩, ⟨0, 0, -1⟩⟩
      ⟨⟨0, 0, -1/2⟩, ⟨0, 0, 1⟩, material.lambertian ⟨1, 0, 0⟩, 1/2, true⟩).2.2.dir.near_zero
      = false :=
  (lambertian_scatter_spec ⟨0, 0, -1⟩ ⟨1, 0, 0⟩ ⟨⟨0, 0, 0⟩, ⟨0, 0, -1⟩⟩
    ⟨⟨0, 0, -1/2⟩, ⟨0, 0, 1⟩, material.lambertian ⟨1, 0, 0⟩, 1/2, true⟩
    (by norm_num [vec3.near_zero])).2.2.2

/-- Helper: once some member has reported a hit, the composite's result flag
stays true for the rest of the loop. -/
theorem hitLoop_of_hit_anything (r : ray) (tmin : XQ)
    (objects : List (ray → interval → hit_record → Bool × hit_record)) :
    ∀ (closest : XQ) (temp rec : hit_record),
    (hittable_list.hitLoop r tmin objects closest true temp rec).1 = true := by
  induction objects with
  | nil => intro closest temp rec; rfl
  | cons o rest ih =>
    intro closest temp rec
    rw [hittable_list.hitLoop]
    split
    · exact ih _ _ _
    · exact ih _ _ _

/-- Helper: while no member has reported a hit, the caller's record rides
along unchanged whenever the loop finishes with a false flag. -/
theorem hitLoop_false_frame (r : ray) (tmin : XQ)
    (objects : List (ray → interval → hit_record → Bool × hit_record)) :
    ∀ (closest : XQ) (temp rec : hit_record),
    (hittable_list.hitLoop r tmin objects closest false temp rec).1 = false →
    (hittable_list.hitLoop r tmin objects closest false temp rec).2 = rec := by
  induction objects with
  | nil => intro closest temp rec _; rfl
  | cons o rest ih =>
    intro closest temp rec h
    rw [hittable_list.hitLoop] at h ⊢
    by_cases hc : (o r ⟨tmin, closest⟩ temp).1 = true
    · rw [if_pos hc] at h
      rw [hitLoop_of_hit_anything] at h
      cases h
    · rw [if_neg hc] at h ⊢
      exact ih _ _ _ h

/-- C9: whenever an intersection test returns false — a sphere with a
negative discriminant or both roots outside the interval, or a composite
list none of whose members reports a hit — the caller's hit record comes
back completely unchanged. -/
theorem hit_miss_leaves_record (sq : ℚ → ℚ) (s : sphere)
    (objects : List (ray → interval → hit_record → Bool × hit_record))
    (r : ray) (ray_t : interval) (rec : hit_record) :
    ((sphere.hit sq s r ray_t rec).1 = false →
      (sphere.hit sq s r ray_t rec).2 = rec) ∧
    ((hittable_list.hit objects r ray_t rec).1 = false →
      (hittable_list.hit objects r ray_t rec).2 = rec) := by
  constructor
  · rw [sphere.hit]
    dsimp only
    split_ifs <;> simp
  · rw [hittable_list.hit]
    exact hitLoop_false_frame r ray_t.min objects ray_t.max default rec

/-- Witness for C9: a ray leaving the unit-radius-half sphere behind it (the
smaller and larger roots are both negative, outside (0, 100)) and the empty
composite both return false and leave a nontrivial input record untouched. -/
theorem hit_miss_leaves_record_witness :
    (sphere.hit (fun _ => 1/2) ⟨⟨0, 0, -1⟩, 1/2, material.lambertian ⟨1, 0, 0⟩⟩
      ⟨⟨0, 0, 0⟩, ⟨0, 0, 1⟩⟩ ⟨.fin 0, .fin 100⟩
      ⟨⟨5, 5, 5⟩, ⟨0, 1, 0⟩, material.dielectric (3/2), 7, true⟩).2 =
      ⟨⟨5, 5, 5⟩, ⟨0, 1, 0⟩, material.dielectric (3/2), 7, true⟩ ∧
    (hittable_list.hit [] ⟨⟨0, 0, 0⟩, ⟨0, 0, 1⟩⟩ ⟨.fin 0, .fin 100⟩
      ⟨⟨5, 5, 5⟩, ⟨0, 1, 0⟩, material.dielectric (3/2), 7, true⟩).2 =
      ⟨⟨5, 5, 5⟩, ⟨0, 1, 0⟩, material.dielectric (3/2), 7, true⟩ :=
  ⟨(hit_miss_leaves_record (fun _ => 1/2)
      ⟨⟨0, 0, -1⟩, 1/2, material.lambertian ⟨1, 0, 0⟩⟩ []
      ⟨⟨0, 0, 0⟩, ⟨0, 0, 1⟩⟩ ⟨.fin 0, .fin 100⟩
      ⟨⟨5, 5, 5⟩, ⟨0, 1, 0⟩, material.dielectric (3/2), 7, true⟩).1
    (by norm_num [sphere.hit, vec3.dot, vec3.length_squared, interval.contains,
      XQ.leb]),
   (hit_miss_leaves_record (fun _ => 1/2)
      ⟨⟨0, 0, -1⟩, 1/2, material.lambertian ⟨1, 0, 0⟩⟩ []
      ⟨⟨0, 0, 0⟩, ⟨0, 0, 1⟩⟩ ⟨.fin 0, .fin 100⟩
      ⟨⟨5, 5, 5⟩, ⟨0, 1, 0⟩, material.dielectric (3/2), 7, true⟩).2 rfl⟩

/-- Helper: clamping to the `intensity` interval always yields a finite value
inside [0, 0.999]. -/
theorem intensity_clamp_bounds (y : ℚ) :
    ∃ q, intensity.clamp y = .fin q ∧ 0 ≤ q ∧ q ≤ 999/1000 := by
  unfold intensity interval.clamp XQ.ltb
  dsimp only
  split_ifs with h1 h2
  · exact ⟨0, rfl, le_refl 0, by norm_num⟩
  · exact ⟨999/1000, rfl, by norm_num, le_refl _⟩
  · rw [decide_eq_true_eq] at h1 h2
    exact ⟨y, rfl, by linarith, by linarith⟩

/-- Helper: every emitted channel byte lies in [0, 255]. -/
theorem byteOf_bounds (sq : ℚ → ℚ) (x : ℚ) :
    0 ≤ byteOf sq x ∧ byteOf sq x ≤ 255 := by
  obtain ⟨q, hq, h0, h1⟩ := intensity_clamp_bounds (linear_to_gamma sq x)
  unfold byteOf
  rw [hq]
  dsimp only
  unfold truncQ
  split_ifs with hneg
  · exfalso; linarith
  · constructor
    · exact Int.floor_nonneg.mpr (by linarith)
    · have h2 : (256 : ℚ) * q < 256 := by linarith
      have h3 := Int.floor_lt.mpr (by exact_mod_cast h2 : (256:ℚ) * q < ((256:ℤ):ℚ))
      omega

/-- Helper: the clamped full-intensity value 0.999 scales and truncates to
byte 255. -/
theorem trunc_255 : truncQ (256 * (999/1000 : ℚ)) = 255 := by
  unfold truncQ
  split_ifs with hneg
  · exfalso; norm_num at hneg
  · rw [show ((256 : ℚ) * (999/1000)) = 31968/125 by norm_num]
    rw [Int.floor_eq_iff]
    constructor <;> norm_num

/-- Helper: a channel at least 0.999 emits byte 255 whenever `sq` returns its
exact nonnegative square root there. -/
theorem byteOf_hi (sq : ℚ → ℚ) (x : ℚ) (hx : 999/1000 ≤ x) (hnn : 0 ≤ sq x)
    (hsq : sq x * sq x = x) : byteOf sq x = 255 := by
  have hge : 999/1000 ≤ sq x := by nlinarith
  have hpos : x > 0 := by linarith
  unfold byteOf linear_to_gamma
  rw [if_pos hpos]
  unfold intensity interval.clamp XQ.ltb
  dsimp only
  rw [if_neg (by rw [decide_eq_true_eq]; push_neg; linarith)]
  by_cases hgt : (999/1000 : ℚ) < sq x
  · rw [if_pos (by rw [decide_eq_true_eq]; exact hgt)]
    exact trunc_255
  · rw [if_neg (by rw [decide_eq_true_eq]; exact hgt)]
    have heq : sq x = 999/1000 := le_antisymm (not_lt.mp hgt) hge
    rw [heq]
    exact trunc_255

/-- C4: each channel is gamma-corrected (square root for positive input, 0
otherwise), clamped to [0, 0.999], scaled by 256 and truncated, so every
emitted byte lies in [0, 255] and is never 256; linear (1,1,1) maps to bytes
(255,255,255), linear (0,0,0) maps to (0,0,0), and any channel at least
0.999 emits byte 255. The square-root hypotheses pin `sq` to the exact
nonnegative root at the points where the code calls it. -/
theorem write_color_spec (sq : ℚ → ℚ) (c : color) (x : ℚ) :
    (0 ≤ (write_color sq c).1 ∧ (write_color sq c).1 ≤ 255) ∧
    (0 ≤ (write_color sq c).2.1 ∧ (write_color sq c).2.1 ≤ 255) ∧
    (0 ≤ (write_color sq c).2.2 ∧ (write_color sq c).2.2 ≤ 255) ∧
    (0 ≤ sq 1 → sq 1 * sq 1 = 1 → write_color sq ⟨1, 1, 1⟩ = (255, 255, 255)) ∧
    write_color sq ⟨0, 0, 0⟩ = (0, 0, 0) ∧
    (999/1000 ≤ x → 0 ≤ sq x → sq x * sq x = x → byteOf sq x = 255) := by
  refine ⟨byteOf_bounds sq c.x, byteOf_bounds sq c.y, byteOf_bounds sq c.z,
    ?_, ?_, byteOf_hi sq x⟩
  · intro h1 h2
    have h255 := byteOf_hi sq 1 (by norm_num) h1 h2
    show (byteOf sq 1, byteOf sq 1, byteOf sq 1) = _
    rw [h255]
  · show (byteOf sq 0, byteOf sq 0, byteOf sq 0) = _
    have h0 : byteOf sq 0 = 0 := by
      have h : ¬ ((999:ℚ)/1000 < 0) := by norm_num
      simp [byteOf, linear_to_gamma, intensity, interval.clamp, XQ.ltb, truncQ, h]
    rw [h0]

/-- Witness for C4 with the square root fixed to 1 at the only queried
points: the white, black, and ≥0.999 cases, and the byte range on a color
with out-of-range channels. -/
theorem write_color_spec_witness :
    write_color (fun _ => 1) ⟨1, 1, 1⟩ = (255, 255, 255) ∧
    write_color (fun _ => 1) ⟨0, 0, 0⟩ = (0, 0, 0) ∧
    byteOf (fun _ => 1) 1 = 255 ∧
    0 ≤ (write_color (fun _ => 1) ⟨1/2, 2, -3⟩).1 ∧
    (write_color (fun _ => 1) ⟨1/2, 2, -3⟩).1 ≤ 255 := by
  obtain ⟨b1, b2, b3, h111, h000, hhi⟩ :=
    write_color_spec (fun _ => 1) ⟨1/2, 2, -3⟩ 1
  exact ⟨h111 (by norm_num) (by norm_num), h000,
    hhi (by norm_num) (by norm_num) (by norm_num), b1.1, b1.2⟩

/-- Discriminant of the half-coefficient quadratic solved by `sphere::hit`,
written out without the intermediate locals: h·h − a·c. -/
def sphere.disc (s : sphere) (r : ray) : ℚ :=
  vec3.dot r.dir (s.center - r.orig) * vec3.dot r.dir (s.center - r.orig) -
    r.dir.length_squared *
      ((s.center - r.orig).length_squared - s.radius * s.radius)

/-- The first root tested by `sphere::hit`: (h − sqrt(d)) / a. -/
def sphere.root1 (sq : ℚ → ℚ) (s : sphere) (r : ray) : ℚ :=
  (vec3.dot r.dir (s.center - r.orig) - sq (sphere.disc s r)) /
    r.dir.length_squared

/-- The fallback root tested by `sphere::hit`: (h + sqrt(d)) / a. -/
def sphere.root2 (sq : ℚ → ℚ) (s : sphere) (r : ray) : ℚ :=
  (vec3.dot r.dir (s.center - r.orig) + sq (sphere.disc s r)) /
    r.dir.length_squared

/-- C3: sphere intersection solves the half-coefficient quadratic: a negative
discriminant is a miss; otherwise the root (h−sqrt(d))/a is tested first and
accepted if inside the interval, else (h+sqrt(d))/a is tested, else it is a
miss; the first root is the smaller one when the direction is nondegenerate
and `sq` is the exact root; and for the unit example — sphere center
(0,0,−1), radius 0.5, ray origin (0,0,0), direction (0,0,−1) — the hit has
t = 0.5, point (0,0,−0.5), outward-facing normal (0,0,1), front_face true. -/
theorem sphere_hit_root_selection (sq : ℚ → ℚ) (s : sphere) (r : ray)
    (ray_t : interval) (rec : hit_record)
    (hsq : 0 ≤ sphere.disc s r →
      0 ≤ sq (sphere.disc s r) ∧
      sq (sphere.disc s r) * sq (sphere.disc s r) = sphere.disc s r) :
    (sphere.disc s r < 0 → sphere.hit sq s r ray_t rec = (false, rec)) ∧
    (0 ≤ sphere.disc s r → ray_t.contains (sphere.root1 sq s r) = true →
      sphere.hit sq s r ray_t rec =
        (true, sphere.fillRecord s r rec (sphere.root1 sq s r))) ∧
    (0 ≤ sphere.disc s r → ray_t.contains (sphere.root1 sq s r) = false →
      ray_t.contains (sphere.root2 sq s r) = true →
      sphere.hit sq s r ray_t rec =
        (true, sphere.fillRecord s r rec (sphere.root2 sq s r))) ∧
    (0 ≤ sphere.disc s r → ray_t.contains (sphere.root1 sq s r) = false →
      ray_t.contains (sphere.root2 sq s r) = false →
      sphere.hit sq s r ray_t rec = (false, rec)) ∧
    (0 ≤ sphere.disc s r → 0 < r.dir.length_squared →
      sphere.root1 sq s r ≤ sphere.root2 sq s r) ∧
    sphere.hit (fun _ => 1/2) ⟨⟨0, 0, -1⟩, 1/2, material.lambertian ⟨1, 1, 1⟩⟩
      ⟨⟨0, 0, 0⟩, ⟨0, 0, -1⟩⟩ ⟨.fin (1/10000), .inf⟩ default =
      (true, ⟨⟨0, 0, -1/2⟩, ⟨0, 0, 1⟩, material.lambertian ⟨1, 1, 1⟩, 1/2, true⟩) := by
  refine ⟨?_, ?_, ?_, ?_, ?_, ?_⟩
  · intro hd
    unfold sphere.disc at hd
    rw [sphere.hit]
    dsimp only
    rw [if_pos hd]
  · intro hd h1
    unfold sphere.disc at hd
    unfold sphere.root1 sphere.disc at h1
    rw [sphere.hit]
    dsimp only
    rw [if_neg (not_lt.mpr hd), if_pos h1]
    rfl
  · intro hd h1 h2
    unfold sphere.disc at hd
    unfold sphere.root1 sphere.disc at h1
    unfold sphere.root2 sphere.disc at h2
    rw [sphere.hit]
    dsimp only
    rw [if_neg (not_lt.mpr hd),
      if_neg (by rw [h1]; exact Bool.false_ne_true), if_pos h2]
    rfl
  · intro hd h1 h2
    unfold sphere.disc at hd
    unfold sphere.root1 sphere.disc at h1
    unfold sphere.root2 sphere.disc at h2
    rw [sphere.hit]
    dsimp only
    rw [if_neg (not_lt.mpr hd),
      if_neg (by rw [h1]; exact Bool.false_ne_true),
      if_neg (by rw [h2]; exact Bool.false_ne_true)]
  · intro hd hl
    obtain ⟨hnn, _⟩ := hsq hd
    unfold sphere.root1 sphere.root2
    gcongr
    linarith
  · norm_num [sphere.hit, sphere.fillRecord, hit_record.set_face_normal,
      ray.at, vec3.dot, vec3.length_squared, vec3.sdiv, interval.contains,
      XQ.leb, default]

/-- Witness for C3: the unit example, with the square root fixed to the exact
value 1/2 of the discriminant 1/4 (checked in discharging the hypothesis). -/
theorem sphere_hit_root_selection_witness :
    sphere.hit (fun _ => 1/2) ⟨⟨0, 0, -1⟩, 1/2, material.lambertian ⟨1, 1, 1⟩⟩
      ⟨⟨0, 0, 0⟩, ⟨0, 0, -1⟩⟩ ⟨.fin (1/10000), .inf⟩ default =
      (true, ⟨⟨0, 0, -1/2⟩, ⟨0, 0, 1⟩, material.lambertian ⟨1, 1, 1⟩, 1/2, true⟩) :=
  (sphere_hit_root_selection (fun _ => 1/2)
    ⟨⟨0, 0, -1⟩, 1/2, material.lambertian ⟨1, 1, 1⟩⟩
    ⟨⟨0, 0, 0⟩, ⟨0, 0, -1⟩⟩ ⟨.fin (1/10000), .inf⟩ default
    (fun _ => by
      constructor <;>
        norm_num [sphere.disc, vec3.dot, vec3.length_squared])).2.2.2.2.2

/-- C2 (amended): in a two-member composite, when the first member reports a
hit and the second member, queried on the interval narrowed to the first hit's
t, also reports a hit — in particular at exactly equal t, which the closed
`interval::contains` admits — the composite returns the record of the member
tested last, not the one tested first. -/
theorem hittable_list_tie_goes_to_later
    (f1 f2 : ray → interval → hit_record → Bool × hit_record)
    (r : ray) (ray_t : interval) (rec0 rec1 rec2 : hit_record)
    (h1 : f1 r ⟨ray_t.min, ray_t.max⟩ default = (true, rec1))
    (h2 : f2 r ⟨ray_t.min, .fin rec1.t⟩ rec1 = (true, rec2))
    (htie : rec2.t = rec1.t) :
    hittable_list.hit [f1, f2] r ray_t rec0 = (true, rec2) := by
  simp only [hittable_list.hit, hittable_list.hitLoop, h1, h2, if_true]

/-- Diffuse red material of the first tie sphere. -/
def tieMatA : material := material.lambertian ⟨1, 0, 0⟩

/-- Metallic green material of the second tie sphere. -/
def tieMatB : material := material.metal ⟨0, 1, 0⟩ 0

/-- First member: a sphere at (0,0,−1), radius 0.5, red diffuse. -/
def tieSphereA : sphere := ⟨⟨0, 0, -1⟩, 1/2, tieMatA⟩

/-- Second member: the identical geometry with a different material, so both
members intersect any ray at exactly the same t. -/
def tieSphereB : sphere := ⟨⟨0, 0, -1⟩, 1/2, tieMatB⟩

/-- Query ray for the tie scenario. -/
def tieRay : ray := ⟨⟨0, 0, 0⟩, ⟨0, 0, -1⟩⟩

/-- Query interval for the tie scenario. -/
def tieInterval : interval := ⟨.fin (1/10000), .fin 100⟩

/-- Counterexample to C2 as stated: both members intersect the ray at the
same t = 1/2, yet the composite returns the second member's record (its
material differs from the first member's), so ties do not resolve to the
member tested first. -/
theorem hittable_list_tie_cex :
    (sphere.hit (fun _ => 1/2) tieSphereA tieRay tieInterval default).2.mat
      = tieMatA ∧
    (hittable_list.hit
      [sphere.hit (fun _ => 1/2) tieSphereA, sphere.hit (fun _ => 1/2) tieSphereB]
      tieRay tieInterval default).2.mat = tieMatB ∧
    tieMatA ≠ tieMatB := by
  refine ⟨?_, ?_, ?_⟩
  · norm_num [sphere.hit, sphere.fillRecord, hit_record.set_face_normal,
      ray.at, vec3.dot, vec3.length_squared, vec3.sdiv, interval.contains,
      XQ.leb, tieSphereA, tieMatA, tieRay, tieInterval, default]
  · norm_num [hittable_list.hit, hittable_list.hitLoop, sphere.hit,
      sphere.fillRecord, hit_record.set_face_normal, ray.at, vec3.dot,
      vec3.length_squared, vec3.sdiv, interval.contains, XQ.leb,
      tieSphereA, tieSphereB, tieMatA, tieMatB, tieRay, tieInterval, default]
  · simp [tieMatA, tieMatB]

/-- Witness for the amended C2: the two identical spheres tie at t = 1/2 and
the composite returns the second sphere's record. -/
theorem hittable_list_tie_goes_to_later_witness :
    hittable_list.hit
      [sphere.hit (fun _ => 1/2) tieSphereA, sphere.hit (fun _ => 1/2) tieSphereB]
      tieRay tieInterval default =
      (true, ⟨⟨0, 0, -1/2⟩, ⟨0, 0, 1⟩, tieMatB, 1/2, true⟩) :=
  hittable_list_tie_goes_to_later
    (sphere.hit (fun _ => 1/2) tieSphereA) (sphere.hit (fun _ => 1/2) tieSphereB)
    tieRay tieInterval default
    ⟨⟨0, 0, -1/2⟩, ⟨0, 0, 1⟩, tieMatA, 1/2, true⟩
    ⟨⟨0, 0, -1/2⟩, ⟨0, 0, 1⟩, tieMatB, 1/2, true⟩
    (by norm_num [sphere.hit, sphere.fillRecord, hit_record.set_face_normal,
      ray.at, vec3.dot, vec3.length_squared, vec3.sdiv, interval.contains,
      XQ.leb, tieSphereA, tieMatA, tieRay, tieInterval, default])
    (by norm_num [sphere.hit, sphere.fillRecord, hit_record.set_face_normal,
      ray.at, vec3.dot, vec3.length_squared, vec3.sdiv, interval.contains,
      XQ.leb, tieSphereB, tieMatB, tieRay, tieInterval, default])
    rfl

/-- C1 (amended): for every ray in the empty scene and every depth of at
least 1, `ray_color` returns exactly the background gradient
(1−a)·white + a·(0.5,0.7,1.0) with a = 0.5·(unit(direction).y + 1),
independently of the depth and of the material dispatch; at depth ≤ 0 the
depth-exhaustion branch returns black instead. -/
theorem ray_color_empty_background (sq : ℚ → ℚ)
    (scatterFn : material → ray → hit_record → Bool × color × ray)
    (r : ray) (depth : ℤ) (hd : 1 ≤ depth) :
    camera.ray_color sq scatterFn (hittable_list.hit []) r depth =
      (1 - 1/2 * ((unit_vector sq r.dir).y + 1)) • (⟨1, 1, 1⟩ : color) +
        (1/2 * ((unit_vector sq r.dir).y + 1)) • (⟨1/2, 7/10, 1⟩ : color) := by
  obtain ⟨n, hn⟩ : ∃ n, depth.toNat = n + 1 := ⟨depth.toNat - 1, by omega⟩
  rw [camera.ray_color, hn, camera.ray_colorAux]
  simp only [hittable_list.hit, hittable_list.hitLoop]
  norm_num

/-- Counterexample to C1 as stated: at depth 0 the ray (0,0,0)→(0,1,0) in
the empty scene yields black, not the background gradient value. -/
theorem ray_color_empty_background_cex :
    camera.ray_color (fun _ => 1)
      (material.scatter (fun _ => 1) ⟨0, 0, 0⟩ 0) (hittable_list.hit [])
      ⟨⟨0, 0, 0⟩, ⟨0, 1, 0⟩⟩ 0 ≠
      (1 - 1/2 * ((unit_vector (fun _ => 1) (⟨0, 1, 0⟩ : vec3)).y + 1)) •
          (⟨1, 1, 1⟩ : color) +
        (1/2 * ((unit_vector (fun _ => 1) (⟨0, 1, 0⟩ : vec3)).y + 1)) •
          (⟨1/2, 7/10, 1⟩ : color) := by
  norm_num [camera.ray_color, camera.ray_colorAux, unit_vector, vec3.sdiv,
    vec3.length_squared]

/-- Witness for the amended C1: at depth 1 the straight-up ray gets exactly
the gradient value. -/
theorem ray_color_empty_background_witness :
    camera.ray_color (fun _ => 1)
      (material.scatter (fun _ => 1) ⟨0, 0, 0⟩ 0) (hittable_list.hit [])
      ⟨⟨0, 0, 0⟩, ⟨0, 1, 0⟩⟩ 1 =
      (1 - 1/2 * ((unit_vector (fun _ => 1) (⟨0, 1, 0⟩ : vec3)).y + 1)) •
          (⟨1, 1, 1⟩ : color) +
        (1/2 * ((unit_vector (fun _ => 1) (⟨0, 1, 0⟩ : vec3)).y + 1)) •
          (⟨1/2, 7/10, 1⟩ : color) :=
  ray_color_empty_background (fun _ => 1)
    (material.scatter (fun _ => 1) ⟨0, 0, 0⟩ 0)
    ⟨⟨0, 0, 0⟩, ⟨0, 1, 0⟩⟩ 1 (by norm_num)
